import Mathlib

/-!
Verification development for the vtimestamp repository.

We give a shallow embedding of the VDXF timestamp codec (src/lib/vdxf.ts),
the RPC fallback logic (src/lib/server/verus.ts), the pending-timestamp
registry (src/lib/server/timestamp.ts) and the login-result registry
(the authentication helper module), and prove the spec's testable
properties about them.

JavaScript `Map` objects are modelled as association lists with the usual
get/set/delete operations; JavaScript numbers appearing in the code are
integer-valued throughout (sizes, flags, timestamps in milliseconds) and
are modelled as `Int`/`Nat`.
-/

namespace VTimestamp

/-! ## Association-list model of JavaScript `Map` -/

/-- Model of `Map.get`: the value of the first pair with the given key. -/
def mapGet {α : Type} (m : List (String × α)) (k : String) : Option α :=
  (m.find? (fun p => p.1 == k)).map (fun p => p.2)

/-- Model of `Map.delete`: remove every pair with the given key. -/
def mapDel {α : Type} (m : List (String × α)) (k : String) : List (String × α) :=
  m.filter (fun p => !(p.1 == k))

/-- Model of `Map.set`: replace any existing binding for the key. -/
def mapSet {α : Type} (m : List (String × α)) (k : String) (v : α) :
    List (String × α) :=
  mapDel m k ++ [(k, v)]

theorem find?_mapDel_none {α : Type} (m : List (String × α)) (k : String) :
    List.find? (fun p => p.1 == k) (mapDel m k) = none := by
  rw [List.find?_eq_none]
  intro x hx
  rcases List.mem_filter.mp hx with ⟨-, hkeep⟩
  simpa using hkeep

theorem mapGet_mapSet_self {α : Type} (m : List (String × α)) (k : String) (v : α) :
    mapGet (mapSet m k v) k = some v := by
  unfold mapGet mapSet
  rw [List.find?_append, find?_mapDel_none]
  simp [List.find?]

theorem mapGet_mapDel_self {α : Type} (m : List (String × α)) (k : String) :
    mapGet (mapDel m k) k = none := by
  unfold mapGet
  rw [find?_mapDel_none]
  rfl

theorem mapGet_mapSet_ne {α : Type} (m : List (String × α)) (k k' : String) (v : α)
    (h : k ≠ k') : mapGet (mapSet m k v) k' = mapGet (mapDel m k) k' := by
  have hb : (k == k') = false := beq_eq_false_iff_ne.mpr h
  unfold mapGet mapSet
  rw [List.find?_append]
  have h2 : List.find? (fun p => p.1 == k') [(k, v)] = none := by
    simp [List.find?, hb]
  rw [h2]
  simp

/-! ## Decimal strings: models of the JavaScript builtins used by the code

The codec serializes numbers with `Number.prototype.toString()` (decimal)
and reads them back with `parseInt(s, 10)`.  Both are modelled here for
integer-valued numbers: `intToDecString` prints sign and decimal digits,
`jsParseInt` skips leading whitespace, reads an optional sign and the
longest prefix of decimal digits, and is `none` when no digit follows.
-/

/-- Decimal digit test, as `parseInt` uses for base 10. -/
def isDecDigit (c : Char) : Bool := 48 ≤ c.toNat && c.toNat ≤ 57

/-- Whitespace skipped by `parseInt` (ASCII whitespace). -/
def jsWhitespace (c : Char) : Bool :=
  c.toNat = 32 || c.toNat = 9 || c.toNat = 10 || c.toNat = 13 ||
  c.toNat = 11 || c.toNat = 12

/-- Accumulate one decimal digit character. -/
def decStep (a : Nat) (c : Char) : Nat := a * 10 + (c.toNat - 48)

/-- Longest prefix of decimal digits, as a number; `none` if there is none. -/
def parseDigits (cs : List Char) : Option Nat :=
  let ds := cs.takeWhile isDecDigit
  if ds.isEmpty then none else some (ds.foldl decStep 0)

/-- Model of JavaScript `parseInt(s, 10)` restricted to its integer results. -/
def jsParseInt (s : String) : Option Int :=
  match s.data.dropWhile jsWhitespace with
  | [] => none
  | c :: rest =>
    if c = '-' then (parseDigits rest).map (fun n => -(n : Int))
    else if c = '+' then (parseDigits rest).map (fun n => (n : Int))
    else (parseDigits (c :: rest)).map (fun n => (n : Int))

/-- Big-endian decimal digit characters of `n`, with `fuel ≥ n` for termination. -/
def toDecAux : Nat → Nat → List Char
  | 0, _ => []
  | fuel + 1, n =>
    if n = 0 then []
    else toDecAux fuel (n / 10) ++ [Char.ofNat (n % 10 + 48)]

/-- Decimal digit characters of a natural number (JS prints `0` as "0"). -/
def natDecChars (n : Nat) : List Char :=
  if n = 0 then ['0'] else toDecAux n n

/-- Model of `Number.prototype.toString()` for an integer-valued number. -/
def intToDecString (m : Int) : String :=
  if m < 0 then String.mk ('-' :: natDecChars m.natAbs)
  else String.mk (natDecChars m.toNat)

theorem decDigitChar_spec : ∀ d : Nat, d < 10 →
    isDecDigit (Char.ofNat (d + 48)) = true ∧ (Char.ofNat (d + 48)).toNat = d + 48 := by
  decide

theorem toDecAux_digits (fuel : Nat) : ∀ n c, c ∈ toDecAux fuel n → isDecDigit c = true := by
  induction fuel with
  | zero => intro n c h; simp [toDecAux] at h
  | succ f ih =>
    intro n c h
    by_cases hn : n = 0
    · simp [toDecAux, hn] at h
    · simp only [toDecAux, hn, if_false, List.mem_append, List.mem_singleton] at h
      rcases h with h | h
      · exact ih _ _ h
      · subst h
        exact (decDigitChar_spec (n % 10) (Nat.mod_lt _ (by omega))).1

theorem foldl_toDecAux (fuel : Nat) : ∀ n a, n ≤ fuel →
    List.foldl decStep a (toDecAux fuel n) = a * 10 ^ (toDecAux fuel n).length + n := by
  induction fuel with
  | zero =>
    intro n a h
    have : n = 0 := Nat.le_zero.mp h
    simp [toDecAux, this]
  | succ f ih =>
    intro n a h
    by_cases hn : n = 0
    · simp [toDecAux, hn]
    · have hdiv : n / 10 ≤ f := by
        have : n / 10 < n := Nat.div_lt_self (Nat.pos_of_ne_zero hn) (by omega)
        omega
      have hchar : (Char.ofNat (n % 10 + 48)).toNat = n % 10 + 48 :=
        (decDigitChar_spec (n % 10) (Nat.mod_lt _ (by omega))).2
      simp only [toDecAux, hn, if_false, List.foldl_append, List.foldl_cons,
        List.foldl_nil, List.length_append, List.length_singleton]
      rw [ih (n / 10) a hdiv]
      simp only [decStep, hchar]
      have hsub : n % 10 + 48 - 48 = n % 10 := by omega
      rw [hsub, pow_succ]
      have hgen : ∀ t : Nat, (t + n / 10) * 10 + n % 10 = t * 10 + n := by
        intro t; omega
      calc (a * 10 ^ (toDecAux f (n / 10)).length + n / 10) * 10 + n % 10
      _ = a * 10 ^ (toDecAux f (n / 10)).length * 10 + n := hgen _
      _ = a * (10 ^ (toDecAux f (n / 10)).length * 10) + n := by ring_nf

theorem takeWhile_all {p : Char → Bool} : ∀ l : List Char,
    (∀ c ∈ l, p c = true) → l.takeWhile p = l := by
  intro l h
  induction l with
  | nil => rfl
  | cons c rest ih =>
    have hc : p c = true := h c (List.mem_cons_self _ _)
    simp only [List.takeWhile_cons, hc, if_true]
    exact congrArg (c :: ·) (ih (fun x hx => h x (List.mem_cons_of_mem _ hx)))

theorem natDecChars_digits (n : Nat) : ∀ c ∈ natDecChars n, isDecDigit c = true := by
  by_cases hn : n = 0
  · subst hn; decide
  · intro c hc
    simp only [natDecChars, hn, if_false] at hc
    exact toDecAux_digits n n c hc

theorem natDecChars_ne_nil (n : Nat) : natDecChars n ≠ [] := by
  cases n with
  | zero => decide
  | succ k =>
    have hstep : toDecAux (k + 1) (k + 1) =
        toDecAux k ((k + 1) / 10) ++ [Char.ofNat ((k + 1) % 10 + 48)] := by
      simp [toDecAux]
    simp [natDecChars, hstep]

theorem parseDigits_natDecChars (n : Nat) : parseDigits (natDecChars n) = some n := by
  by_cases hn : n = 0
  · subst hn; decide
  · unfold parseDigits
    rw [takeWhile_all _ (natDecChars_digits n)]
    simp only [List.isEmpty_iff, natDecChars_ne_nil n, if_false]
    simp only [natDecChars, hn, if_false]
    rw [foldl_toDecAux n n 0 (le_refl n)]
    simp

theorem decDigit_not_ws (c : Char) (h : isDecDigit c = true) : jsWhitespace c = false := by
  simp only [isDecDigit, Bool.and_eq_true, decide_eq_true_eq] at h
  simp only [jsWhitespace, Bool.or_eq_false_iff, decide_eq_false_iff_not]
  omega

/-- The decimal printer and `parseInt` round-trip on every integer. -/
theorem jsParseInt_intToDecString (m : Int) : jsParseInt (intToDecString m) = some m := by
  by_cases hm : m < 0
  · have hd : (intToDecString m).data = '-' :: natDecChars m.natAbs := by
      simp [intToDecString, hm]
    unfold jsParseInt
    rw [hd]
    have hws : jsWhitespace '-' = false := by decide
    rw [List.dropWhile_cons, hws]
    simp only [Bool.false_eq_true, if_false, if_pos rfl]
    rw [parseDigits_natDecChars]
    have hval : -((m.natAbs : Nat) : Int) = m := by omega
    simp [hval]
    rw [abs_of_neg hm]
    ring
  · push_neg at hm
    have hd : (intToDecString m).data = natDecChars m.toNat := by
      simp [intToDecString, not_lt.mpr hm]
    obtain ⟨c, rest, hcr⟩ : ∃ c rest, natDecChars m.toNat = c :: rest := by
      cases h : natDecChars m.toNat with
      | nil => exact absurd h (natDecChars_ne_nil _)
      | cons c r => exact ⟨c, r, rfl⟩
    have hcdig : isDecDigit c = true :=
      natDecChars_digits _ c (hcr ▸ List.mem_cons_self _ _)
    have hnum : 48 ≤ c.toNat ∧ c.toNat ≤ 57 := by
      simpa [isDecDigit] using hcdig
    have hws : jsWhitespace c = false := decDigit_not_ws c hcdig
    have hneg : c ≠ '-' := by
      intro h
      rw [h] at hnum
      revert hnum; decide
    have hplus : c ≠ '+' := by
      intro h
      rw [h] at hnum
      revert hnum; decide
    unfold jsParseInt
    rw [hd, hcr, List.dropWhile_cons, hws]
    simp only [Bool.false_eq_true, if_false, if_neg hneg, if_neg hplus]
    rw [← hcr, parseDigits_natDecChars]
    simp [Int.toNat_of_nonneg hm]

/-! ## Data model of the VDXF codec (src/lib/vdxf.ts)

A `DataDescriptor`'s `objectdata` is `{ message: string } | number | null`
in the source; it is modelled as a three-way tagged value.  Descriptors
built by `buildDataDescriptor` carry no `flags` property, so `flags` is an
`Option Int` (`none` models an absent property, for which the JavaScript
comparison `flags === 32` is false).  A `DataDescriptorWrapper` is an
object whose `i4GC...` property holds the descriptor.
-/

inductive ObjectData where
  | msg (message : String)
  | num (value : Int)
  | null
  deriving DecidableEq

structure DataDescriptor where
  version : Int
  flags : Option Int
  objectdata : ObjectData
  label : Option String
  mimetype : Option String
  deriving DecidableEq

structure DataDescriptorWrapper where
  pairs : List (String × DataDescriptor)
  deriving DecidableEq

/-- VDXF key of the DataDescriptor wrapper (config.ts, `VDXF_KEYS.dataDescriptor`). -/
def vdxfDataDescriptorKey : String := "i4GC1YGEVD21afWudGoFJVdnfjJ5XWnCQv"

/-- Outer content-map key (config.ts, testnet `VDXF_KEYS.proofBasic`). -/
def proofBasicKey : String := "i6UD4js3jqyjz9Mttmbk2Sh4eCuwLKPLyQ"

/-- Label key for the sha256 field (config.ts). -/
def labelSha256 : String := "iBCkvv7KC18xd3P164Cvw1pxpLo5FyGEtm"

/-- Label key for the title field (config.ts). -/
def labelTitle : String := "iHXGu1nW4jQoeooBHPGE58qQGf9wMakEtj"

/-- Label key for the description field (config.ts). -/
def labelDescription : String := "iP1PCTTHPpktP26xTEu1BuwENWMHQaia4D"

/-- Label key for the filename field (config.ts). -/
def labelFilename : String := "i4xgBqX9btMX8tnAjsyVFrgSLnigxPwBw5"

/-- Label key for the filesize field (config.ts). -/
def labelFilesize : String := "iRz2tyZZEwmrxRPSrwN8UTAC8g5KyVkBiE"

/-- Accessor `wrapper[VDXF_KEYS.dataDescriptor]` used by `parseTimestampData`. -/
def getWrapped (w : DataDescriptorWrapper) : Option DataDescriptor :=
  mapGet w.pairs vdxfDataDescriptorKey

/-- Mirrors `isDeleted`: `descriptor.objectdata === null || descriptor.flags === 32`. -/
def isDeleted (d : DataDescriptor) : Bool :=
  d.objectdata == ObjectData.null || d.flags == some 32

/-- Mirrors `extractStringValue`: a `message` payload as-is, otherwise undefined. -/
def extractStringValue (d : DataDescriptor) : Option String :=
  match d.objectdata with
  | ObjectData.null => none
  | ObjectData.msg m => some m
  | ObjectData.num _ => none

/-- Mirrors `extractNumberValue`: a raw number, or `parseInt` of a string message. -/
def extractNumberValue (d : DataDescriptor) : Option Int :=
  match d.objectdata with
  | ObjectData.num n => some n
  | ObjectData.msg m => jsParseInt m
  | ObjectData.null => none

structure TimestampData where
  sha256 : String
  title : String
  description : Option String
  filename : Option String
  filesize : Option Int
  deriving DecidableEq

/-- State of the `Partial<TimestampData>` accumulator in `parseTimestampData`;
`none` models a field that is absent or was assigned `undefined`. -/
structure PartialTimestampData where
  sha256 : Option String
  title : Option String
  description : Option String
  filename : Option String
  filesize : Option Int
  deriving DecidableEq

def emptyPartial : PartialTimestampData := ⟨none, none, none, none, none⟩

/-- Body of the `for` loop of `parseTimestampData` for a single wrapper:
skip a missing descriptor, a deletion marker, or a falsy label; otherwise
assign the extracted value (possibly `none`) to the matching field. -/
def applyEntry (acc : PartialTimestampData) (w : DataDescriptorWrapper) :
    PartialTimestampData :=
  match getWrapped w with
  | none => acc
  | some d =>
    if isDeleted d then acc
    else
      match d.label with
      | none => acc
      | some l =>
        if l = "" then acc
        else if l = labelSha256 then { acc with sha256 := extractStringValue d }
        else if l = labelTitle then { acc with title := extractStringValue d }
        else if l = labelDescription then { acc with description := extractStringValue d }
        else if l = labelFilename then { acc with filename := extractStringValue d }
        else if l = labelFilesize then { acc with filesize := extractNumberValue d }
        else acc

/-- JavaScript truthiness of an optional string: defined and non-empty. -/
def strTruthy : Option String → Bool
  | none => false
  | some s => !s.isEmpty

/-- Accumulated field assignments of `parseTimestampData`'s loop. -/
def parseFoldResult (entries : List DataDescriptorWrapper) : PartialTimestampData :=
  entries.foldl applyEntry emptyPartial

/-- Mirrors `parseTimestampData`: run the loop, then return `null` unless
both `data.sha256` and `data.title` are truthy. -/
def parseTimestampData (entries : List DataDescriptorWrapper) : Option TimestampData :=
  let data := parseFoldResult entries
  if strTruthy data.sha256 && strTruthy data.title then
    some { sha256 := data.sha256.getD "", title := data.title.getD "",
           description := data.description, filename := data.filename,
           filesize := data.filesize }
  else none

/-! ## History entries, lookup, and builders (src/lib/vdxf.ts continued) -/

abbrev ContentMultiMap := List (String × List DataDescriptorWrapper)

structure TxOutput where
  txid : String
  voutnum : Int
  deriving DecidableEq

structure IdentityData where
  version : Int
  flags : Int
  name : String
  identityaddress : String
  parent : String
  contentmultimap : Option ContentMultiMap
  deriving DecidableEq

structure IdentityHistoryEntry where
  identity : IdentityData
  blockhash : String
  height : Int
  output : TxOutput
  deriving DecidableEq

structure TimestampRecord where
  data : TimestampData
  blockhash : String
  blockheight : Int
  blocktime : Option Int
  txid : String
  deriving DecidableEq

/-- Mirrors `parseHistoryEntry`: select the `proofBasic` entries of the
content map, decode them, and attach blockhash, height and txid. -/
def parseHistoryEntry (entry : IdentityHistoryEntry) : Option TimestampRecord :=
  match entry.identity.contentmultimap with
  | none => none
  | some cmm =>
    match mapGet cmm proofBasicKey with
    | none => none
    | some entries =>
      if entries.isEmpty then none
      else
        match parseTimestampData entries with
        | none => none
        | some data =>
          some { data := data, blockhash := entry.blockhash,
                 blockheight := entry.height, blocktime := none,
                 txid := entry.output.txid }

/-- Model of JavaScript `toLowerCase` on the ASCII range (the hashes the
code compares are hex strings, on which the two agree). -/
def jsCharToLower (c : Char) : Char :=
  if 65 ≤ c.toNat ∧ c.toNat ≤ 90 then Char.ofNat (c.toNat + 32) else c

/-- Lower-case a whole string, character by character. -/
def jsToLowerCase (s : String) : String := String.mk (s.data.map jsCharToLower)

/-- Loop of `findTimestampByHash`, with the target already normalized. -/
def findTimestampByHashAux (normalizedHash : String) :
    List IdentityHistoryEntry → Option TimestampRecord
  | [] => none
  | entry :: rest =>
    match parseHistoryEntry entry with
    | some record =>
      if jsToLowerCase record.data.sha256 = normalizedHash then some record
      else findTimestampByHashAux normalizedHash rest
    | none => findTimestampByHashAux normalizedHash rest

/-- Mirrors `findTimestampByHash`: lower-case the target, scan the history
in order, return the first decodable record whose hash matches. -/
def findTimestampByHash (history : List IdentityHistoryEntry) (sha256 : String) :
    Option TimestampRecord :=
  findTimestampByHashAux (jsToLowerCase sha256) history

/-- Value argument of `buildDataDescriptor` (`string | number`). -/
inductive StrOrNum where
  | str (s : String)
  | num (n : Int)
  deriving DecidableEq

/-- Descriptor object built by `buildDataDescriptor`: numbers are
serialized with `toString()` into the message payload; the built
descriptor carries no `flags` property. -/
def builtDescriptor (label : String) (value : StrOrNum) : DataDescriptor :=
  { version := 1, flags := none,
    objectdata := match value with
      | StrOrNum.num n => ObjectData.msg (intToDecString n)
      | StrOrNum.str s => ObjectData.msg s,
    label := some label, mimetype := some "text/plain" }

/-- Mirrors `buildDataDescriptor`: wrap the descriptor under the
DataDescriptor VDXF key. -/
def buildDataDescriptor (label : String) (value : StrOrNum) : DataDescriptorWrapper :=
  ⟨[(vdxfDataDescriptorKey, builtDescriptor label value)]⟩

structure CreateTimestampInput where
  sha256 : String
  title : String
  description : Option String
  filename : Option String
  filesize : Option Int
  deriving DecidableEq

/-- Entry list assembled by `buildTimestampContentMap`: required fields
always, optional string fields only when truthy, filesize whenever
defined. -/
def tsEntryList (input : CreateTimestampInput) : List DataDescriptorWrapper :=
  [buildDataDescriptor labelSha256 (StrOrNum.str input.sha256),
   buildDataDescriptor labelTitle (StrOrNum.str input.title)]
  ++ (match input.description with
      | some s =>
        if s.isEmpty then []
        else [buildDataDescriptor labelDescription (StrOrNum.str s)]
      | none => [])
  ++ (match input.filename with
      | some s =>
        if s.isEmpty then []
        else [buildDataDescriptor labelFilename (StrOrNum.str s)]
      | none => [])
  ++ (match input.filesize with
      | some n => [buildDataDescriptor labelFilesize (StrOrNum.num n)]
      | none => [])

/-- Mirrors `buildTimestampContentMap`: the assembled entries under the
`proofBasic` outer key. -/
def buildTimestampContentMap (input : CreateTimestampInput) : ContentMultiMap :=
  [(proofBasicKey, tsEntryList input)]

/-- Entry list stored under a content-map key (empty when absent). -/
def contentMapEntries (m : ContentMultiMap) (k : String) :
    List DataDescriptorWrapper :=
  (mapGet m k).getD []

/-! ## Last-write-wins characterization of the decode loop -/

/-- Predicate: the wrapper holds a live (non-tombstoned) descriptor whose
label is `l`. -/
def liveLabeled (w : DataDescriptorWrapper) (l : String) : Bool :=
  match getWrapped w with
  | some d => !isDeleted d && d.label == some l
  | none => false

/-- Descriptor of the last live entry bearing label `l`, if any. -/
def lastLiveDescriptor (entries : List DataDescriptorWrapper) (l : String) :
    Option DataDescriptor :=
  entries.foldl
    (fun acc w => if liveLabeled w l then getWrapped w else acc) none

theorem liveLabeled_getWrapped (w : DataDescriptorWrapper) (l : String)
    (h : liveLabeled w l = true) :
    ∃ d, getWrapped w = some d ∧ isDeleted d = false ∧ d.label = some l := by
  unfold liveLabeled at h
  cases hg : getWrapped w with
  | none => rw [hg] at h; exact absurd h (by simp)
  | some d =>
    rw [hg] at h
    simp only [Bool.and_eq_true, Bool.not_eq_true', beq_iff_eq] at h
    exact ⟨d, rfl, h.1, h.2⟩

theorem foldl_lastLive_step (l : String) :
    ∀ (entries : List DataDescriptorWrapper) (acc : Option DataDescriptor),
      entries.foldl (fun acc w => if liveLabeled w l then getWrapped w else acc) acc =
        match lastLiveDescriptor entries l with
        | some d => some d
        | none => acc := by
  intro entries
  induction entries with
  | nil => intro acc; simp [lastLiveDescriptor]
  | cons w rest ih =>
    intro acc
    have hcons : lastLiveDescriptor (w :: rest) l =
        rest.foldl (fun acc w => if liveLabeled w l then getWrapped w else acc)
          (if liveLabeled w l then getWrapped w else none) := rfl
    rw [List.foldl_cons, ih, hcons, ih]
    cases hr : lastLiveDescriptor rest l with
    | some d => rfl
    | none =>
      by_cases hlw : liveLabeled w l = true
      · obtain ⟨d, hg, -, -⟩ := liveLabeled_getWrapped w l hlw
        simp [hlw, hg]
      · simp [hlw]

/-- Generic last-write-wins lemma for one field of the decode loop. -/
theorem foldl_applyEntry_field {β : Type} (g : PartialTimestampData → Option β)
    (f : DataDescriptor → Option β) (lf : String)
    (Hlive : ∀ init w d, getWrapped w = some d → liveLabeled w lf = true →
      g (applyEntry init w) = f d)
    (Hskip : ∀ init w, liveLabeled w lf = false → g (applyEntry init w) = g init) :
    ∀ (entries : List DataDescriptorWrapper) (init : PartialTimestampData),
      g (entries.foldl applyEntry init) =
        match lastLiveDescriptor entries lf with
        | some d => f d
        | none => g init := by
  intro entries
  induction entries with
  | nil => intro init; simp [lastLiveDescriptor]
  | cons w rest ih =>
    intro init
    have hcons : lastLiveDescriptor (w :: rest) lf =
        rest.foldl (fun acc w => if liveLabeled w lf then getWrapped w else acc)
          (if liveLabeled w lf then getWrapped w else none) := rfl
    rw [List.foldl_cons, ih, hcons, foldl_lastLive_step lf rest]
    by_cases hlw : liveLabeled w lf = true
    · obtain ⟨d, hg, -, -⟩ := liveLabeled_getWrapped w lf hlw
      rw [Hlive init w d hg hlw]
      simp only [hlw, if_true, hg]
      cases hr : lastLiveDescriptor rest lf with
      | some d' => rfl
      | none => rfl
    · rw [Hskip init w (Bool.not_eq_true _ ▸ eq_false_of_ne_true hlw)]
      simp only [hlw]
      cases hr : lastLiveDescriptor rest lf with
      | some d' => rfl
      | none => simp

theorem label_constants_distinct :
    labelSha256 ≠ "" ∧ labelTitle ≠ "" ∧ labelDescription ≠ "" ∧
    labelFilename ≠ "" ∧ labelFilesize ≠ "" ∧
    labelTitle ≠ labelSha256 ∧ labelDescription ≠ labelSha256 ∧
    labelDescription ≠ labelTitle ∧ labelFilename ≠ labelSha256 ∧
    labelFilename ≠ labelTitle ∧ labelFilename ≠ labelDescription ∧
    labelFilesize ≠ labelSha256 ∧ labelFilesize ≠ labelTitle ∧
    labelFilesize ≠ labelDescription ∧ labelFilesize ≠ labelFilename := by
  refine ⟨?_, ?_, ?_, ?_, ?_, ?_, ?_, ?_, ?_, ?_, ?_, ?_, ?_, ?_, ?_⟩ <;> decide

theorem applyEntry_live_sha256 (init : PartialTimestampData)
    (w : DataDescriptorWrapper) (d : DataDescriptor)
    (hg : getWrapped w = some d) (h : liveLabeled w labelSha256 = true) :
    (applyEntry init w).sha256 = extractStringValue d := by
  obtain ⟨d', hg', hdel, hl⟩ := liveLabeled_getWrapped w labelSha256 h
  rw [hg] at hg'
  cases hg'
  simp only [applyEntry, hg, hdel, hl, Bool.false_eq_true, if_false]
  simp [label_constants_distinct.1]

theorem applyEntry_skip_sha256 (init : PartialTimestampData)
    (w : DataDescriptorWrapper) (h : liveLabeled w labelSha256 = false) :
    (applyEntry init w).sha256 = init.sha256 := by
  cases hg : getWrapped w with
  | none => simp [applyEntry, hg]
  | some d =>
    unfold liveLabeled at h
    rw [hg] at h
    by_cases hdel : isDeleted d = true
    · simp [applyEntry, hg, hdel]
    · have hdel' : isDeleted d = false := eq_false_of_ne_true hdel
      have h : (!isDeleted d && d.label == some labelSha256) = false := h
      rw [hdel'] at h
      simp only [Bool.not_false, Bool.true_and, beq_eq_false_iff_ne] at h
      cases hl : d.label with
      | none => simp [applyEntry, hg, hdel', hl]
      | some l =>
        rw [hl] at h
        have hne : l ≠ labelSha256 := fun he => h (by rw [he])
        simp only [applyEntry, hg, hdel', hl, Bool.false_eq_true, if_false]
        split_ifs <;> first | rfl | exact absurd ‹l = labelSha256› hne

theorem applyEntry_live_title (init : PartialTimestampData)
    (w : DataDescriptorWrapper) (d : DataDescriptor)
    (hg : getWrapped w = some d) (h : liveLabeled w labelTitle = true) :
    (applyEntry init w).title = extractStringValue d := by
  obtain ⟨d', hg', hdel, hl⟩ := liveLabeled_getWrapped w labelTitle h
  rw [hg] at hg'
  cases hg'
  simp only [applyEntry, hg, hdel, hl, Bool.false_eq_true, if_false]
  simp [label_constants_distinct.2.1, label_constants_distinct.2.2.2.2.2.1]

theorem applyEntry_skip_title (init : PartialTimestampData)
    (w : DataDescriptorWrapper) (h : liveLabeled w labelTitle = false) :
    (applyEntry init w).title = init.title := by
  cases hg : getWrapped w with
  | none => simp [applyEntry, hg]
  | some d =>
    unfold liveLabeled at h
    rw [hg] at h
    by_cases hdel : isDeleted d = true
    · simp [applyEntry, hg, hdel]
    · have hdel' : isDeleted d = false := eq_false_of_ne_true hdel
      have h : (!isDeleted d && d.label == some labelTitle) = false := h
      rw [hdel'] at h
      simp only [Bool.not_false, Bool.true_and, beq_eq_false_iff_ne] at h
      cases hl : d.label with
      | none => simp [applyEntry, hg, hdel', hl]
      | some l =>
        rw [hl] at h
        have hne : l ≠ labelTitle := fun he => h (by rw [he])
        simp only [applyEntry, hg, hdel', hl, Bool.false_eq_true, if_false]
        split_ifs <;> first | rfl | exact absurd ‹l = labelTitle› hne

theorem applyEntry_live_description (init : PartialTimestampData)
    (w : DataDescriptorWrapper) (d : DataDescriptor)
    (hg : getWrapped w = some d) (h : liveLabeled w labelDescription = true) :
    (applyEntry init w).description = extractStringValue d := by
  obtain ⟨d', hg', hdel, hl⟩ := liveLabeled_getWrapped w labelDescription h
  rw [hg] at hg'
  cases hg'
  simp only [applyEntry, hg, hdel, hl, Bool.false_eq_true, if_false]
  simp [label_constants_distinct.2.2.1, label_constants_distinct.2.2.2.2.2.2.1,
    label_constants_distinct.2.2.2.2.2.2.2.1]

theorem applyEntry_skip_description (init : PartialTimestampData)
    (w : DataDescriptorWrapper) (h : liveLabeled w labelDescription = false) :
    (applyEntry init w).description = init.description := by
  cases hg : getWrapped w with
  | none => simp [applyEntry, hg]
  | some d =>
    unfold liveLabeled at h
    rw [hg] at h
    by_cases hdel : isDeleted d = true
    · simp [applyEntry, hg, hdel]
    · have hdel' : isDeleted d = false := eq_false_of_ne_true hdel
      have h : (!isDeleted d && d.label == some labelDescription) = false := h
      rw [hdel'] at h
      simp only [Bool.not_false, Bool.true_and, beq_eq_false_iff_ne] at h
      cases hl : d.label with
      | none => simp [applyEntry, hg, hdel', hl]
      | some l =>
        rw [hl] at h
        have hne : l ≠ labelDescription := fun he => h (by rw [he])
        simp only [applyEntry, hg, hdel', hl, Bool.false_eq_true, if_false]
        split_ifs <;> first | rfl | exact absurd ‹l = labelDescription› hne

theorem applyEntry_live_filename (init : PartialTimestampData)
    (w : DataDescriptorWrapper) (d : DataDescriptor)
    (hg : getWrapped w = some d) (h : liveLabeled w labelFilename = true) :
    (applyEntry init w).filename = extractStringValue d := by
  obtain ⟨d', hg', hdel, hl⟩ := liveLabeled_getWrapped w labelFilename h
  rw [hg] at hg'
  cases hg'
  simp only [applyEntry, hg, hdel, hl, Bool.false_eq_true, if_false]
  simp [label_constants_distinct.2.2.2.1,
    label_constants_distinct.2.2.2.2.2.2.2.2.1,
    label_constants_distinct.2.2.2.2.2.2.2.2.2.1,
    label_constants_distinct.2.2.2.2.2.2.2.2.2.2.1]

theorem applyEntry_skip_filename (init : PartialTimestampData)
    (w : DataDescriptorWrapper) (h : liveLabeled w labelFilename = false) :
    (applyEntry init w).filename = init.filename := by
  cases hg : getWrapped w with
  | none => simp [applyEntry, hg]
  | some d =>
    unfold liveLabeled at h
    rw [hg] at h
    by_cases hdel : isDeleted d = true
    · simp [applyEntry, hg, hdel]
    · have hdel' : isDeleted d = false := eq_false_of_ne_true hdel
      have h : (!isDeleted d && d.label == some labelFilename) = false := h
      rw [hdel'] at h
      simp only [Bool.not_false, Bool.true_and, beq_eq_false_iff_ne] at h
      cases hl : d.label with
      | none => simp [applyEntry, hg, hdel', hl]
      | some l =>
        rw [hl] at h
        have hne : l ≠ labelFilename := fun he => h (by rw [he])
        simp only [applyEntry, hg, hdel', hl, Bool.false_eq_true, if_false]
        split_ifs <;> first | rfl | exact absurd ‹l = labelFilename› hne

theorem applyEntry_live_filesize (init : PartialTimestampData)
    (w : DataDescriptorWrapper) (d : DataDescriptor)
    (hg : getWrapped w = some d) (h : liveLabeled w labelFilesize = true) :
    (applyEntry init w).filesize = extractNumberValue d := by
  obtain ⟨d', hg', hdel, hl⟩ := liveLabeled_getWrapped w labelFilesize h
  rw [hg] at hg'
  cases hg'
  simp only [applyEntry, hg, hdel, hl, Bool.false_eq_true, if_false]
  simp [label_constants_distinct.2.2.2.2.1,
    label_constants_distinct.2.2.2.2.2.2.2.2.2.2.2.1,
    label_constants_distinct.2.2.2.2.2.2.2.2.2.2.2.2.1,
    label_constants_distinct.2.2.2.2.2.2.2.2.2.2.2.2.2.1,
    label_constants_distinct.2.2.2.2.2.2.2.2.2.2.2.2.2.2]

theorem applyEntry_skip_filesize (init : PartialTimestampData)
    (w : DataDescriptorWrapper) (h : liveLabeled w labelFilesize = false) :
    (applyEntry init w).filesize = init.filesize := by
  cases hg : getWrapped w with
  | none => simp [applyEntry, hg]
  | some d =>
    unfold liveLabeled at h
    rw [hg] at h
    by_cases hdel : isDeleted d = true
    · simp [applyEntry, hg, hdel]
    · have hdel' : isDeleted d = false := eq_false_of_ne_true hdel
      have h : (!isDeleted d && d.label == some labelFilesize) = false := h
      rw [hdel'] at h
      simp only [Bool.not_false, Bool.true_and, beq_eq_false_iff_ne] at h
      cases hl : d.label with
      | none => simp [applyEntry, hg, hdel', hl]
      | some l =>
        rw [hl] at h
        have hne : l ≠ labelFilesize := fun he => h (by rw [he])
        simp only [applyEntry, hg, hdel', hl, Bool.false_eq_true, if_false]
        split_ifs <;> first | rfl | exact absurd ‹l = labelFilesize› hne

/-- Resolved string value of a label under last-write-wins. -/
def resolvedStr (entries : List DataDescriptorWrapper) (l : String) : Option String :=
  (lastLiveDescriptor entries l).bind extractStringValue

/-- Resolved number value of a label under last-write-wins. -/
def resolvedNum (entries : List DataDescriptorWrapper) (l : String) : Option Int :=
  (lastLiveDescriptor entries l).bind extractNumberValue

theorem parseFoldResult_sha256 (entries : List DataDescriptorWrapper) :
    (parseFoldResult entries).sha256 = resolvedStr entries labelSha256 := by
  have h := foldl_applyEntry_field (fun p => p.sha256) extractStringValue labelSha256
    applyEntry_live_sha256 applyEntry_skip_sha256 entries emptyPartial
  rw [parseFoldResult, h, resolvedStr]
  cases lastLiveDescriptor entries labelSha256 <;> rfl

theorem parseFoldResult_title (entries : List DataDescriptorWrapper) :
    (parseFoldResult entries).title = resolvedStr entries labelTitle := by
  have h := foldl_applyEntry_field (fun p => p.title) extractStringValue labelTitle
    applyEntry_live_title applyEntry_skip_title entries emptyPartial
  rw [parseFoldResult, h, resolvedStr]
  cases lastLiveDescriptor entries labelTitle <;> rfl

theorem parseFoldResult_description (entries : List DataDescriptorWrapper) :
    (parseFoldResult entries).description = resolvedStr entries labelDescription := by
  have h := foldl_applyEntry_field (fun p => p.description) extractStringValue
    labelDescription applyEntry_live_description applyEntry_skip_description
    entries emptyPartial
  rw [parseFoldResult, h, resolvedStr]
  cases lastLiveDescriptor entries labelDescription <;> rfl

theorem parseFoldResult_filename (entries : List DataDescriptorWrapper) :
    (parseFoldResult entries).filename = resolvedStr entries labelFilename := by
  have h := foldl_applyEntry_field (fun p => p.filename) extractStringValue
    labelFilename applyEntry_live_filename applyEntry_skip_filename entries emptyPartial
  rw [parseFoldResult, h, resolvedStr]
  cases lastLiveDescriptor entries labelFilename <;> rfl

theorem parseFoldResult_filesize (entries : List DataDescriptorWrapper) :
    (parseFoldResult entries).filesize = resolvedNum entries labelFilesize := by
  have h := foldl_applyEntry_field (fun p => p.filesize) extractNumberValue
    labelFilesize applyEntry_live_filesize applyEntry_skip_filesize entries emptyPartial
  rw [parseFoldResult, h, resolvedNum]
  cases lastLiveDescriptor entries labelFilesize <;> rfl

/-! ## Pending-timestamp registry (src/lib/server/timestamp.ts)

The two module-level `Map`s are modelled as one explicit store value; the
wall clock (`Date.now()`, milliseconds) is passed explicitly.  Only the
store mutations of `createTimestampRequest` are modelled (the signing and
QR-building parts call external libraries and do not touch the store).
-/

structure PendingTimestampRequest where
  requestId : String
  userIdentity : String
  timestampData : CreateTimestampInput
  createdAt : Int
  expiresAt : Int
  deriving DecidableEq

structure CompletedTimestamp where
  txid : String
  completedAt : Int
  expiresAt : Int
  deriving DecidableEq

structure TimestampStore where
  pendingTimestampRequests : List (String × PendingTimestampRequest)
  completedTimestamps : List (String × CompletedTimestamp)
  deriving DecidableEq

/-- Store mutation of `createTimestampRequest`: record the pending request
with a 10-minute (600 000 ms) TTL. -/
def storePendingTimestampRequest (s : TimestampStore) (now : Int)
    (requestId userIdentity : String) (td : CreateTimestampInput) : TimestampStore :=
  let p : PendingTimestampRequest :=
    { requestId := requestId, userIdentity := userIdentity,
      timestampData := td, createdAt := now,
      expiresAt := now + 10 * 60 * 1000 }
  { s with pendingTimestampRequests := mapSet s.pendingTimestampRequests requestId p }

inductive TsPollStatus where
  | pending
  | completed (txid : String)
  | expired
  deriving DecidableEq

/-- Mirrors `getTimestampResult`: completed first, then pending (deleting
it when its TTL lapsed), else expired.  Returns the status together with
the store after the self-healing delete. -/
def getTimestampResult (s : TimestampStore) (now : Int) (requestId : String) :
    TsPollStatus × TimestampStore :=
  match mapGet s.completedTimestamps requestId with
  | some c => (TsPollStatus.completed c.txid, s)
  | none =>
    match mapGet s.pendingTimestampRequests requestId with
    | some p =>
      if now > p.expiresAt then
        (TsPollStatus.expired,
         { s with pendingTimestampRequests :=
             mapDel s.pendingTimestampRequests requestId })
      else (TsPollStatus.pending, s)
    | none => (TsPollStatus.expired, s)

/-- Mirrors `storeTimestampResult`: unconditionally delete any pending
entry, store the completed result with a 5-minute TTL, and return true. -/
def storeTimestampResult (s : TimestampStore) (now : Int)
    (requestId txid : String) : Bool × TimestampStore :=
  let c : CompletedTimestamp :=
    { txid := txid, completedAt := now, expiresAt := now + 5 * 60 * 1000 }
  (true,
   { pendingTimestampRequests := mapDel s.pendingTimestampRequests requestId,
     completedTimestamps := mapSet s.completedTimestamps requestId c })

/-- Mirrors the module's `setInterval` sweep: delete every pending or
completed entry whose TTL has lapsed. -/
def sweepTimestampStore (s : TimestampStore) (now : Int) : TimestampStore :=
  { pendingTimestampRequests :=
      s.pendingTimestampRequests.filter (fun p => !decide (now > p.2.expiresAt)),
    completedTimestamps :=
      s.completedTimestamps.filter (fun p => !decide (now > p.2.expiresAt)) }

/-! ## Login registry (authentication helper module)

Model of `getAuthResult` and the completed-auth map.  The `consume`
parameter defaults to `true` at the call site that polls
(`/api/auth/status` calls `getAuthResult(challengeId)`), so a read deletes
the stored result.
-/

structure PendingChallenge where
  sessionId : String
  createdAt : Int
  expiresAt : Int
  deriving DecidableEq

structure CompletedAuth where
  identity : String
  friendlyName : String
  completedAt : Int
  expiresAt : Int
  deriving DecidableEq

structure AuthStore where
  pendingChallenges : List (String × PendingChallenge)
  completedAuths : List (String × CompletedAuth)
  deriving DecidableEq

/-- Mirrors `getAuthResult(challengeId, consume)`: return the stored
identity info, deleting the entry when `consume` is true. -/
def getAuthResult (s : AuthStore) (challengeId : String) (consume : Bool) :
    Option (String × String) × AuthStore :=
  match mapGet s.completedAuths challengeId with
  | none => (none, s)
  | some auth =>
    (some (auth.identity, auth.friendlyName),
     if consume then
       { s with completedAuths := mapDel s.completedAuths challengeId }
     else s)

/-! ## RPC gateway with fallback (src/lib/server/verus.ts)

The network is a function from endpoint URL to what one POST of the
request to that endpoint does: throw before an HTTP response exists
(timeout, connection refused), produce a non-2xx response, or produce a
JSON-RPC reply carrying either a structured `{code, message}` error or a
result.  `rpcCall` additionally returns the list of endpoints contacted,
in order.
-/

inductive RpcOutcome (T : Type) where
  | network
  | httpError (status : Nat) (statusText : String)
  | reply (rpcError : Option (Int × String)) (result : T)

inductive RpcError where
  | verusRpc (code : Int) (message : String)
  | generic (message : String)
  deriving DecidableEq

/-- Mirrors `rpcCallToEndpoint`: non-2xx becomes a plain `Error`, a
structured reply error becomes a `VerusRpcError`, otherwise the result. -/
def rpcCallToEndpoint {T : Type} (o : RpcOutcome T) : Except RpcError T :=
  match o with
  | RpcOutcome.network => Except.error (RpcError.generic "fetch failed")
  | RpcOutcome.httpError _ _ => Except.error (RpcError.generic "RPC HTTP error")
  | RpcOutcome.reply (some e) _ => Except.error (RpcError.verusRpc e.1 e.2)
  | RpcOutcome.reply none t => Except.ok t

structure RpcConfig where
  endpoint : String
  fallbackEndpoint : String

/-- Mirrors `rpcCall`: try the primary endpoint; rethrow a `VerusRpcError`
unchanged; otherwise retry once against the fallback endpoint when one is
configured (truthy).  The second component lists the endpoints called. -/
def rpcCall {T : Type} (cfg : RpcConfig) (net : String → RpcOutcome T) :
    Except RpcError T × List String :=
  match rpcCallToEndpoint (net cfg.endpoint) with
  | Except.ok t => (Except.ok t, [cfg.endpoint])
  | Except.error e =>
    match e with
    | RpcError.verusRpc c m =>
      (Except.error (RpcError.verusRpc c m), [cfg.endpoint])
    | RpcError.generic m =>
      if cfg.fallbackEndpoint.isEmpty then
        (Except.error (RpcError.generic m), [cfg.endpoint])
      else
        (rpcCallToEndpoint (net cfg.fallbackEndpoint),
         [cfg.endpoint, cfg.fallbackEndpoint])

/-! ## Helper lemmas for the decode and build proofs -/

theorem mapGet_single {α : Type} (k : String) (v : α) : mapGet [(k, v)] k = some v := by
  simp [mapGet, List.find?]

theorem parseTimestampData_eq_none_iff (entries : List DataDescriptorWrapper) :
    parseTimestampData entries = none ↔
      strTruthy (parseFoldResult entries).sha256 = false ∨
      strTruthy (parseFoldResult entries).title = false := by
  unfold parseTimestampData
  cases hb1 : strTruthy (parseFoldResult entries).sha256 <;>
    cases hb2 : strTruthy (parseFoldResult entries).title <;>
      simp [hb1, hb2]

theorem parseTimestampData_eq_some (entries : List DataDescriptorWrapper)
    (d : TimestampData) (h : parseTimestampData entries = some d) :
    strTruthy (parseFoldResult entries).sha256 = true ∧
    strTruthy (parseFoldResult entries).title = true ∧
    d.sha256 = (parseFoldResult entries).sha256.getD "" ∧
    d.title = (parseFoldResult entries).title.getD "" ∧
    d.description = (parseFoldResult entries).description ∧
    d.filename = (parseFoldResult entries).filename ∧
    d.filesize = (parseFoldResult entries).filesize := by
  have h' : (if (strTruthy (parseFoldResult entries).sha256 &&
        strTruthy (parseFoldResult entries).title) = true then
      some { sha256 := (parseFoldResult entries).sha256.getD "",
             title := (parseFoldResult entries).title.getD "",
             description := (parseFoldResult entries).description,
             filename := (parseFoldResult entries).filename,
             filesize := (parseFoldResult entries).filesize }
    else (none : Option TimestampData)) = some d := h
  cases hb1 : strTruthy (parseFoldResult entries).sha256 <;>
    cases hb2 : strTruthy (parseFoldResult entries).title <;>
      rw [hb1, hb2] at h' <;> simp at h'
  · obtain rfl := h'.symm
    exact ⟨rfl, rfl, rfl, rfl, rfl, rfl, rfl⟩

theorem strTruthy_getD_isEmpty (o : Option String) (h : strTruthy o = true) :
    (o.getD "").isEmpty = false := by
  cases o with
  | none => exact absurd h (by simp [strTruthy])
  | some s =>
    simp only [strTruthy, Bool.not_eq_true'] at h
    simpa using h

/-- The last live labeled descriptor is the first hit when searching the
reversed list. -/
theorem lastLiveDescriptor_reverse_find (entries : List DataDescriptorWrapper)
    (l : String) :
    lastLiveDescriptor entries l =
      (entries.reverse.find? (fun w => liveLabeled w l)).bind getWrapped := by
  induction entries with
  | nil => simp [lastLiveDescriptor]
  | cons w rest ih =>
    have hcons : lastLiveDescriptor (w :: rest) l =
        rest.foldl (fun acc w => if liveLabeled w l then getWrapped w else acc)
          (if liveLabeled w l then getWrapped w else none) := rfl
    rw [hcons, foldl_lastLive_step l rest]
    rw [List.reverse_cons, List.find?_append]
    cases hf : rest.reverse.find? (fun w => liveLabeled w l) with
    | some w0 =>
      have hw0pre := List.find?_some hf
      have hw0 : liveLabeled w0 l = true := by simpa using hw0pre
      obtain ⟨d0, hg0, -, -⟩ := liveLabeled_getWrapped w0 l hw0
      rw [hf] at ih
      simp only [Option.some_bind] at ih
      rw [ih, hg0]
      simp [hg0]
    | none =>
      rw [hf] at ih
      simp only [Option.none_bind] at ih
      rw [ih]
      by_cases hlw : liveLabeled w l = true
      · simp [List.find?, hlw]
      · have hlw' : liveLabeled w l = false := eq_false_of_ne_true hlw
        simp [List.find?, hlw']

theorem getWrapped_build (l : String) (v : StrOrNum) :
    getWrapped (buildDataDescriptor l v) = some (builtDescriptor l v) := by
  simp [getWrapped, buildDataDescriptor, mapGet, List.find?]

theorem builtDescriptor_not_deleted (l : String) (v : StrOrNum) :
    isDeleted (builtDescriptor l v) = false := by
  cases v <;> simp [isDeleted, builtDescriptor]

theorem applyEntry_build_sha256 (acc : PartialTimestampData) (s : String) :
    applyEntry acc (buildDataDescriptor labelSha256 (StrOrNum.str s)) =
      { acc with sha256 := some s } := by
  have hnd := builtDescriptor_not_deleted labelSha256 (StrOrNum.str s)
  have hlab : (builtDescriptor labelSha256 (StrOrNum.str s)).label =
      some labelSha256 := rfl
  have hext : extractStringValue (builtDescriptor labelSha256 (StrOrNum.str s)) =
      some s := rfl
  simp [applyEntry, getWrapped_build, hnd, hlab, hext, label_constants_distinct.1]

theorem applyEntry_build_title (acc : PartialTimestampData) (s : String) :
    applyEntry acc (buildDataDescriptor labelTitle (StrOrNum.str s)) =
      { acc with title := some s } := by
  have hnd := builtDescriptor_not_deleted labelTitle (StrOrNum.str s)
  have hlab : (builtDescriptor labelTitle (StrOrNum.str s)).label =
      some labelTitle := rfl
  have hext : extractStringValue (builtDescriptor labelTitle (StrOrNum.str s)) =
      some s := rfl
  simp [applyEntry, getWrapped_build, hnd, hlab, hext,
    label_constants_distinct.2.1, label_constants_distinct.2.2.2.2.2.1]

theorem applyEntry_build_description (acc : PartialTimestampData) (s : String) :
    applyEntry acc (buildDataDescriptor labelDescription (StrOrNum.str s)) =
      { acc with description := some s } := by
  have hnd := builtDescriptor_not_deleted labelDescription (StrOrNum.str s)
  have hlab : (builtDescriptor labelDescription (StrOrNum.str s)).label =
      some labelDescription := rfl
  have hext : extractStringValue
      (builtDescriptor labelDescription (StrOrNum.str s)) = some s := rfl
  simp [applyEntry, getWrapped_build, hnd, hlab, hext,
    label_constants_distinct.2.2.1, label_constants_distinct.2.2.2.2.2.2.1,
    label_constants_distinct.2.2.2.2.2.2.2.1]

theorem applyEntry_build_filename (acc : PartialTimestampData) (s : String) :
    applyEntry acc (buildDataDescriptor labelFilename (StrOrNum.str s)) =
      { acc with filename := some s } := by
  have hnd := builtDescriptor_not_deleted labelFilename (StrOrNum.str s)
  have hlab : (builtDescriptor labelFilename (StrOrNum.str s)).label =
      some labelFilename := rfl
  have hext : extractStringValue
      (builtDescriptor labelFilename (StrOrNum.str s)) = some s := rfl
  simp [applyEntry, getWrapped_build, hnd, hlab, hext,
    label_constants_distinct.2.2.2.1,
    label_constants_distinct.2.2.2.2.2.2.2.2.1,
    label_constants_distinct.2.2.2.2.2.2.2.2.2.1,
    label_constants_distinct.2.2.2.2.2.2.2.2.2.2.1]

theorem applyEntry_build_filesize (acc : PartialTimestampData) (n : Int) :
    applyEntry acc (buildDataDescriptor labelFilesize (StrOrNum.num n)) =
      { acc with filesize := some n } := by
  have hnd := builtDescriptor_not_deleted labelFilesize (StrOrNum.num n)
  have hlab : (builtDescriptor labelFilesize (StrOrNum.num n)).label =
      some labelFilesize := rfl
  have hext : extractNumberValue
      (builtDescriptor labelFilesize (StrOrNum.num n)) = some n := by
    simp [extractNumberValue, builtDescriptor, jsParseInt_intToDecString]
  simp [applyEntry, getWrapped_build, hnd, hlab, hext,
    label_constants_distinct.2.2.2.2.1,
    label_constants_distinct.2.2.2.2.2.2.2.2.2.2.2.1,
    label_constants_distinct.2.2.2.2.2.2.2.2.2.2.2.2.1,
    label_constants_distinct.2.2.2.2.2.2.2.2.2.2.2.2.2.1,
    label_constants_distinct.2.2.2.2.2.2.2.2.2.2.2.2.2.2]

/-- Optional string field as the wire format carries it: omitted when
absent or empty (the builder emits it only when truthy). -/
def truthyOpt : Option String → Option String
  | none => none
  | some s => if s.isEmpty then none else some s

theorem contentMapEntries_build (input : CreateTimestampInput) :
    contentMapEntries (buildTimestampContentMap input) proofBasicKey =
      tsEntryList input := by
  simp [contentMapEntries, buildTimestampContentMap, mapGet_single]

theorem parse_tsEntryList (input : CreateTimestampInput)
    (hs : input.sha256.isEmpty = false) (ht : input.title.isEmpty = false) :
    parseTimestampData (tsEntryList input) =
      some { sha256 := input.sha256, title := input.title,
             description := truthyOpt input.description,
             filename := truthyOpt input.filename,
             filesize := input.filesize } := by
  cases hdesc : input.description <;> cases hfn : input.filename <;>
    cases hfs : input.filesize <;>
    simp only [tsEntryList, hdesc, hfn, hfs, truthyOpt, List.nil_append,
      List.append_nil, List.cons_append, List.singleton_append] <;>
    (try split_ifs) <;>
    simp_all [parseTimestampData, parseFoldResult, List.foldl_cons, List.foldl_nil,
      applyEntry_build_sha256, applyEntry_build_title, applyEntry_build_description,
      applyEntry_build_filename, applyEntry_build_filesize, strTruthy, emptyPartial]

theorem applyEntry_deleted (acc : PartialTimestampData) (w : DataDescriptorWrapper)
    (d : DataDescriptor) (hg : getWrapped w = some d) (hdel : isDeleted d = true) :
    applyEntry acc w = acc := by
  simp [applyEntry, hg, hdel]

/-- Wrappers kept by decoding: those whose descriptor exists and is not a
deletion marker (a missing descriptor is also skipped, but it is not a
tombstone; keeping it is harmless for the fold). -/
def notTombstoned (w : DataDescriptorWrapper) : Bool :=
  match getWrapped w with
  | some d => !isDeleted d
  | none => true

theorem foldl_applyEntry_filter_tombstones :
    ∀ (entries : List DataDescriptorWrapper) (init : PartialTimestampData),
      entries.foldl applyEntry init = (entries.filter notTombstoned).foldl applyEntry init := by
  intro entries
  induction entries with
  | nil => intro init; rfl
  | cons w rest ih =>
    intro init
    by_cases hk : notTombstoned w = true
    · rw [List.foldl_cons, ih, List.filter_cons_of_pos hk, List.foldl_cons]
    · have hk' : notTombstoned w = false := eq_false_of_ne_true hk
      have hdrop : applyEntry init w = init := by
        unfold notTombstoned at hk'
        cases hg : getWrapped w with
        | none => rw [hg] at hk'; exact absurd hk' (by simp)
        | some d =>
          rw [hg] at hk'
          simp only [Bool.not_eq_false'] at hk'
          exact applyEntry_deleted init w d hg hk'
      rw [List.foldl_cons, hdrop, ih, List.filter_cons_of_neg (by simp [hk'])]

theorem parseTimestampData_filter_tombstones (entries : List DataDescriptorWrapper) :
    parseTimestampData entries = parseTimestampData (entries.filter notTombstoned) := by
  unfold parseTimestampData parseFoldResult
  rw [foldl_applyEntry_filter_tombstones entries emptyPartial]

theorem lastLiveDescriptor_mem (entries : List DataDescriptorWrapper) (l : String)
    (dd : DataDescriptor) (h : lastLiveDescriptor entries l = some dd) :
    ∃ w ∈ entries, getWrapped w = some dd ∧ isDeleted dd = false ∧
      dd.label = some l := by
  rw [lastLiveDescriptor_reverse_find] at h
  cases hf : entries.reverse.find? (fun w => liveLabeled w l) with
  | none => rw [hf] at h; exact absurd h (by simp)
  | some w0 =>
    rw [hf] at h
    simp only [Option.some_bind] at h
    have hw0pre := List.find?_some hf
    have hw0 : liveLabeled w0 l = true := by simpa using hw0pre
    obtain ⟨d0, hg0, hdel0, hl0⟩ := liveLabeled_getWrapped w0 l hw0
    rw [hg0] at h
    obtain rfl := Option.some.inj h
    have hmem : w0 ∈ entries := List.mem_reverse.mp (List.mem_of_find?_eq_some hf)
    exact ⟨w0, hmem, hg0, hdel0, hl0⟩

theorem mapGet_filter_keep {α : Type} (m : List (String × α)) (k : String)
    (v : α) (P : String × α → Bool) (h : mapGet m k = some v)
    (hP : P (k, v) = true) : mapGet (m.filter P) k = some v := by
  induction m with
  | nil => simp [mapGet] at h
  | cons q rest ih =>
    obtain ⟨q1, q2⟩ := q
    by_cases hq : q1 = k
    · subst hq
      have hv : q2 = v := by simpa [mapGet, List.find?] using h
      subst hv
      rw [List.filter_cons, if_pos hP]
      simp [mapGet, List.find?]
    · have hqb : (q1 == k) = false := beq_eq_false_iff_ne.mpr hq
      have h' : mapGet rest k = some v := by
        simpa [mapGet, List.find?, hqb] using h
      rw [List.filter_cons]
      by_cases hPq : P (q1, q2) = true
      · rw [if_pos hPq]
        simpa [mapGet, List.find?, hqb] using ih h'
      · rw [if_neg hPq]
        exact ih h'

theorem findTimestampByHashAux_eq_find (nh : String) :
    ∀ history : List IdentityHistoryEntry,
      findTimestampByHashAux nh history =
        (history.filterMap parseHistoryEntry).find?
          (fun r => jsToLowerCase r.data.sha256 == nh) := by
  intro history
  induction history with
  | nil => rfl
  | cons e rest ih =>
    cases hp : parseHistoryEntry e with
    | none => simp [findTimestampByHashAux, hp, List.filterMap_cons, ih]
    | some r =>
      by_cases hm : jsToLowerCase r.data.sha256 = nh
      · simp [findTimestampByHashAux, hp, List.filterMap_cons, List.find?, hm]
      · simp [findTimestampByHashAux, hp, List.filterMap_cons, List.find?, hm, ih]

/-! ## Concrete inputs used by witnesses and counterexamples -/

/-- Wrapper with a live string-message descriptor (flags 0). -/
def mkStrWrapper (l s : String) : DataDescriptorWrapper :=
  ⟨[(vdxfDataDescriptorKey,
     { version := 1, flags := some 0, objectdata := ObjectData.msg s,
       label := some l, mimetype := some "text/plain" })]⟩

/-- Wrapper with a live numeric-objectdata descriptor (flags 0). -/
def mkNumWrapper (l : String) (n : Int) : DataDescriptorWrapper :=
  ⟨[(vdxfDataDescriptorKey,
     { version := 1, flags := some 0, objectdata := ObjectData.num n,
       label := some l, mimetype := none })]⟩

/-- Wrapper with a tombstoned descriptor (flags 32, null payload). -/
def mkTombWrapper (l : String) : DataDescriptorWrapper :=
  ⟨[(vdxfDataDescriptorKey,
     { version := 1, flags := some 32, objectdata := ObjectData.null,
       label := some l, mimetype := none })]⟩

def hashUpper64 : String :=
  "AB12CD34EF56AB12CD34EF56AB12CD34EF56AB12CD34EF56AB12CD34EF561234"

def hashLower64 : String :=
  "ab12cd34ef56ab12cd34ef56ab12cd34ef56ab12cd34ef56ab12cd34ef561234"

def hashA : String :=
  "aa11bb22cc33aa11bb22cc33aa11bb22cc33aa11bb22cc33aa11bb22cc331122"

def hashB : String :=
  "bb22cc33dd44bb22cc33dd44bb22cc33dd44bb22cc33dd44bb22cc33dd442233"

def hashC : String :=
  "cc33dd44ee55cc33dd44ee55cc33dd44ee55cc33dd44ee55cc33dd44ee553344"

/-- Test: does the list hold a live entry with label `l` whose payload is a
non-empty string message? -/
def hasLiveNonEmptyStrEntry (entries : List DataDescriptorWrapper) (l : String) :
    Bool :=
  entries.any (fun w =>
    match getWrapped w with
    | some d => !isDeleted d && d.label == some l &&
        (match extractStringValue d with
         | some s => !s.isEmpty
         | none => false)
    | none => false)

def c1entries : List DataDescriptorWrapper :=
  [mkStrWrapper labelSha256 hashA, mkNumWrapper labelSha256 5,
   mkStrWrapper labelTitle "doc1"]

def c1okEntries : List DataDescriptorWrapper :=
  [mkStrWrapper labelSha256 hashB, mkStrWrapper labelTitle "ok title"]

def c1okData : TimestampData :=
  { sha256 := hashB, title := "ok title", description := none,
    filename := none, filesize := none }

def c2input : CreateTimestampInput :=
  { sha256 := hashA, title := "My Title", description := some "d",
    filename := none, filesize := some 12345 }

def c3entries : List DataDescriptorWrapper :=
  [mkStrWrapper labelSha256 hashA, mkTombWrapper labelSha256,
   mkStrWrapper labelTitle "doc1"]

def c7entries : List DataDescriptorWrapper :=
  [mkStrWrapper labelSha256 hashB, mkStrWrapper labelTitle "doc2",
   mkNumWrapper labelFilesize (-5)]

def c7wEntries : List DataDescriptorWrapper :=
  [mkStrWrapper labelSha256 hashA, mkStrWrapper labelTitle "doc4",
   mkNumWrapper labelFilesize 7]

def c7wData : TimestampData :=
  { sha256 := hashA, title := "doc4", description := none, filename := none,
    filesize := some 7 }

def c9entries : List DataDescriptorWrapper :=
  [mkStrWrapper labelSha256 hashC, mkNumWrapper labelSha256 5,
   mkStrWrapper labelTitle "doc5"]

def upperEntry : IdentityHistoryEntry :=
  { identity :=
      { version := 3, flags := 0, name := "alice", identityaddress := "iAlice",
        parent := "iParent",
        contentmultimap := some
          [(proofBasicKey,
            [mkStrWrapper labelSha256 hashUpper64,
             mkStrWrapper labelTitle "doc1"])] },
    blockhash := "bh1", height := 5, output := { txid := "tx1", voutnum := 0 } }

def upperRecord : TimestampRecord :=
  { data := { sha256 := hashUpper64, title := "doc1", description := none,
              filename := none, filesize := none },
    blockhash := "bh1", blockheight := 5, blocktime := none, txid := "tx1" }

def tdEx : CreateTimestampInput :=
  { sha256 := hashA, title := "t", description := none, filename := none,
    filesize := none }

def c8store : TimestampStore :=
  ⟨[], [("r9", { txid := "tx9", completedAt := 0, expiresAt := 300000 })]⟩

def c8auth : AuthStore :=
  ⟨[], [("c1", { identity := "iAddrAlice", friendlyName := "alice@",
                 completedAt := 0, expiresAt := 300000 })]⟩

def cfgEx : RpcConfig := ⟨"https://primary", "https://fallback"⟩

def netEx : String → RpcOutcome Nat := fun e =>
  if e == "https://primary" then RpcOutcome.network
  else RpcOutcome.reply none 42

/-! ## Claim theorems -/

/-- C1 (amended): `parseTimestampData` (decodeRecord) returns `None`
exactly when, under last-write-wins over the non-tombstoned entries, the
resolved sha256 value or the resolved title value is undefined or empty;
when it returns a record, that record is complete, with non-empty sha256
and title — never a partial record. -/
theorem c1_decode_none_iff_required_resolved (entries : List DataDescriptorWrapper) :
    (parseTimestampData entries = none ↔
      strTruthy (resolvedStr entries labelSha256) = false ∨
      strTruthy (resolvedStr entries labelTitle) = false) ∧
    ∀ d, parseTimestampData entries = some d →
      d.sha256.isEmpty = false ∧ d.title.isEmpty = false := by
  constructor
  · rw [parseTimestampData_eq_none_iff, parseFoldResult_sha256, parseFoldResult_title]
  · intro d hd
    obtain ⟨h1, h2, h3, h4, -, -, -⟩ := parseTimestampData_eq_some entries d hd
    rw [h3, h4]
    exact ⟨strTruthy_getD_isEmpty _ h1, strTruthy_getD_isEmpty _ h2⟩

/-- C1 witness: a list with live sha256 and title entries decodes to a
complete record with non-empty required fields. -/
theorem c1_decode_none_iff_required_resolved_witness :
    c1okData.sha256.isEmpty = false ∧ c1okData.title.isEmpty = false :=
  (c1_decode_none_iff_required_resolved c1okEntries).2 c1okData (by decide)

/-- C1 counterexample: the list holds live, non-empty sha256 and title
entries — the filtered set lacks neither — yet decoding returns `None`,
because a later live sha256 entry with a numeric payload overwrites the
earlier value with undefined. -/
theorem c1_counterexample :
    parseTimestampData c1entries = none ∧
    hasLiveNonEmptyStrEntry c1entries labelSha256 = true ∧
    hasLiveNonEmptyStrEntry c1entries labelTitle = true := by
  refine ⟨by decide, by decide, by decide⟩

/-- C2: decoding the entry list produced by `buildTimestampContentMap`
returns the input back, restricted to the fields the wire format carries
(optional string fields are omitted when absent or empty; the filesize
survives its decimal-string round-trip as the same integer). -/
theorem c2_encode_decode_roundtrip (input : CreateTimestampInput)
    (hs : input.sha256.isEmpty = false) (ht : input.title.isEmpty = false) :
    parseTimestampData
        (contentMapEntries (buildTimestampContentMap input) proofBasicKey) =
      some { sha256 := input.sha256, title := input.title,
             description := truthyOpt input.description,
             filename := truthyOpt input.filename,
             filesize := input.filesize } := by
  rw [contentMapEntries_build]
  exact parse_tsEntryList input hs ht

/-- C2 witness: round-trip of a concrete input with all field kinds. -/
theorem c2_encode_decode_roundtrip_witness :
    parseTimestampData
        (contentMapEntries (buildTimestampContentMap c2input) proofBasicKey) =
      some { sha256 := c2input.sha256, title := c2input.title,
             description := truthyOpt c2input.description,
             filename := truthyOpt c2input.filename,
             filesize := c2input.filesize } :=
  c2_encode_decode_roundtrip c2input (by decide) (by decide)

/-- C3 (amended): tombstoned entries are always excluded regardless of
label — removing them from the list never changes the decode result — so a
later tombstoned sha256 entry does not erase an earlier live sha256 entry:
the record remains decodable with the earlier value (the tombstone simply
does not participate in last-write-wins). -/
theorem c3_tombstones_skipped_not_erasing :
    (∀ entries : List DataDescriptorWrapper,
      parseTimestampData entries =
        parseTimestampData (entries.filter notTombstoned)) ∧
    ∀ h t : String, h.isEmpty = false → t.isEmpty = false →
      parseTimestampData
          [mkStrWrapper labelSha256 h, mkTombWrapper labelSha256,
           mkStrWrapper labelTitle t] =
        some { sha256 := h, title := t, description := none, filename := none,
               filesize := none } := by
  constructor
  · exact parseTimestampData_filter_tombstones
  · intro h t hh ht
    simp [parseTimestampData, parseFoldResult, List.foldl_cons, List.foldl_nil,
      applyEntry, mkStrWrapper, mkTombWrapper, getWrapped, mapGet_single,
      isDeleted, extractStringValue, strTruthy, hh, ht, emptyPartial,
      label_constants_distinct.1, label_constants_distinct.2.1,
      label_constants_distinct.2.2.2.2.2.1]

/-- C3 witness: concrete instance of the amended behavior. -/
theorem c3_tombstones_skipped_not_erasing_witness :
    parseTimestampData
        [mkStrWrapper labelSha256 hashB, mkTombWrapper labelSha256,
         mkStrWrapper labelTitle "doc3"] =
      some { sha256 := hashB, title := "doc3", description := none,
             filename := none, filesize := none } :=
  c3_tombstones_skipped_not_erasing.2 hashB "doc3" (by decide) (by decide)

/-- C3 counterexample: a list with a live sha256 entry, a later tombstoned
sha256 entry, and a live title still decodes to a full record carrying the
earlier hash — the claim that the record becomes undecodable is false. -/
theorem c3_counterexample :
    parseTimestampData c3entries =
      some { sha256 := hashA, title := "doc1", description := none,
             filename := none, filesize := none } := by decide

/-- C4: a pending request stored at `t0` carries a 600 000 ms TTL; polling
at `t0 + 601 s` returns `expired` and deletes the entry, polling at
`t0 + 599 s` returns `pending`, and polling an id with neither a pending
nor a completed entry returns `expired`. -/
theorem c4_pending_ttl_and_expiry (s : TimestampStore) (t0 : Int)
    (id uid : String) (td : CreateTimestampInput)
    (hc : mapGet s.completedTimestamps id = none) :
    (getTimestampResult (storePendingTimestampRequest s t0 id uid td)
        (t0 + 601 * 1000) id).1 = TsPollStatus.expired ∧
    mapGet ((getTimestampResult (storePendingTimestampRequest s t0 id uid td)
        (t0 + 601 * 1000) id).2).pendingTimestampRequests id = none ∧
    (getTimestampResult (storePendingTimestampRequest s t0 id uid td)
        (t0 + 599 * 1000) id).1 = TsPollStatus.pending ∧
    ∀ (s' : TimestampStore) (now : Int),
      mapGet s'.completedTimestamps id = none →
      mapGet s'.pendingTimestampRequests id = none →
      (getTimestampResult s' now id).1 = TsPollStatus.expired := by
  have hcomp : mapGet (storePendingTimestampRequest s t0 id uid td).completedTimestamps
      id = none := hc
  have hpend : mapGet (storePendingTimestampRequest s t0 id uid td).pendingTimestampRequests
      id = some { requestId := id, userIdentity := uid, timestampData := td,
                  createdAt := t0, expiresAt := t0 + 10 * 60 * 1000 } :=
    mapGet_mapSet_self _ _ _
  refine ⟨?_, ?_, ?_, ?_⟩
  · simp only [getTimestampResult, hcomp, hpend]
    rw [if_pos (by omega : t0 + 601 * 1000 > t0 + 10 * 60 * 1000)]
  · simp only [getTimestampResult, hcomp, hpend]
    rw [if_pos (by omega : t0 + 601 * 1000 > t0 + 10 * 60 * 1000)]
    exact mapGet_mapDel_self _ _
  · simp only [getTimestampResult, hcomp, hpend]
    rw [if_neg (by omega : ¬(t0 + 599 * 1000 > t0 + 10 * 60 * 1000))]
  · intro s' now h1 h2
    simp only [getTimestampResult, h1, h2]

/-- C4 witness: the three behaviors at a concrete store and clock. -/
theorem c4_pending_ttl_and_expiry_witness :
    (getTimestampResult (storePendingTimestampRequest ⟨[], []⟩ 0 "req1" "iUser" tdEx)
        (0 + 601 * 1000) "req1").1 = TsPollStatus.expired ∧
    mapGet ((getTimestampResult (storePendingTimestampRequest ⟨[], []⟩ 0 "req1" "iUser" tdEx)
        (0 + 601 * 1000) "req1").2).pendingTimestampRequests "req1" = none ∧
    (getTimestampResult (storePendingTimestampRequest ⟨[], []⟩ 0 "req1" "iUser" tdEx)
        (0 + 599 * 1000) "req1").1 = TsPollStatus.pending ∧
    (getTimestampResult ⟨[], []⟩ 12345 "req1").1 = TsPollStatus.expired := by
  have h := c4_pending_ttl_and_expiry ⟨[], []⟩ 0 "req1" "iUser" tdEx rfl
  exact ⟨h.1, h.2.1, h.2.2.1, h.2.2.2 ⟨[], []⟩ 12345 rfl rfl⟩

/-- C5: when the primary endpoint fails for transport reasons (thrown
fetch or non-2xx status), `rpcCall` contacts exactly the primary then the
configured fallback and returns the fallback's outcome — in particular the
fallback's successful result with no error; a structured `VerusRpcError`
from the primary is rethrown unchanged and the fallback is never
contacted. -/
theorem c5_fallback_on_transport_errors_only {T : Type} (cfg : RpcConfig)
    (net : String → RpcOutcome T) (hfb : cfg.fallbackEndpoint.isEmpty = false) :
    ((net cfg.endpoint = RpcOutcome.network ∨
      ∃ st sx, net cfg.endpoint = RpcOutcome.httpError st sx) →
      rpcCall cfg net =
        (rpcCallToEndpoint (net cfg.fallbackEndpoint),
         [cfg.endpoint, cfg.fallbackEndpoint]) ∧
      ∀ t, net cfg.fallbackEndpoint = RpcOutcome.reply none t →
        (rpcCall cfg net).1 = Except.ok t) ∧
    ∀ c m r, net cfg.endpoint = RpcOutcome.reply (some (c, m)) r →
      rpcCall cfg net = (Except.error (RpcError.verusRpc c m), [cfg.endpoint]) := by
  constructor
  · intro htr
    have h1 : rpcCall cfg net =
        (rpcCallToEndpoint (net cfg.fallbackEndpoint),
         [cfg.endpoint, cfg.fallbackEndpoint]) := by
      rcases htr with h | ⟨st, sx, h⟩ <;>
        simp [rpcCall, rpcCallToEndpoint, h, hfb]
    refine ⟨h1, ?_⟩
    intro t ht
    rw [h1]
    simp [rpcCallToEndpoint, ht]
  · intro c m r h
    simp [rpcCall, rpcCallToEndpoint, h]

/-- C5 witness: a timing-out primary with a succeeding fallback yields the
fallback's data with no error, after exactly one fallback attempt. -/
theorem c5_fallback_on_transport_errors_only_witness :
    rpcCall cfgEx netEx = (Except.ok 42, ["https://primary", "https://fallback"]) := by
  have h := (c5_fallback_on_transport_errors_only cfgEx netEx (by decide)).1
    (Or.inl rfl)
  rw [h.1]
  rfl

/-- C6: `findTimestampByHash` normalizes the target hash to lower case and
scans the history in its given order, returning the first decodable record
whose sha256 matches case-insensitively (no sorting); in particular a
record stored with an upper-case hash is found when queried with the same
hash in lower case. -/
theorem c6_findByHash_case_insensitive_first_match :
    (∀ (history : List IdentityHistoryEntry) (target : String),
      findTimestampByHash history target =
        (history.filterMap parseHistoryEntry).find?
          (fun r => jsToLowerCase r.data.sha256 == jsToLowerCase target)) ∧
    findTimestampByHash [upperEntry] hashLower64 = some upperRecord := by
  constructor
  · intro history target
    exact findTimestampByHashAux_eq_find (jsToLowerCase target) history
  · decide

/-- C7 (amended): when decoding succeeds and the optional filesize is
present, it is exactly the integer extracted from the last live
filesize-labeled entry of the list (a raw numeric payload or `parseInt` of
its string message); the decoder applies no sign check, so the value may
be negative. -/
theorem c7_filesize_from_last_live_entry (entries : List DataDescriptorWrapper)
    (d : TimestampData) (h : parseTimestampData entries = some d) :
    d.filesize = resolvedNum entries labelFilesize ∧
    ∀ n, d.filesize = some n →
      ∃ w, w ∈ entries ∧ ∃ dd, getWrapped w = some dd ∧ isDeleted dd = false ∧
        dd.label = some labelFilesize ∧ extractNumberValue dd = some n := by
  obtain ⟨-, -, -, -, -, -, h7⟩ := parseTimestampData_eq_some entries d h
  have hres : d.filesize = resolvedNum entries labelFilesize := by
    rw [h7, parseFoldResult_filesize]
  refine ⟨hres, ?_⟩
  intro n hn
  rw [hres] at hn
  unfold resolvedNum at hn
  cases hld : lastLiveDescriptor entries labelFilesize with
  | none => rw [hld] at hn; exact absurd hn (by simp)
  | some dd =>
    rw [hld] at hn
    simp only [Option.some_bind] at hn
    obtain ⟨w, hw, hg, hdel, hl⟩ := lastLiveDescriptor_mem entries labelFilesize dd hld
    exact ⟨w, hw, dd, hg, hdel, hl, hn⟩

/-- C7 witness: a concrete decode whose filesize comes from the last live
filesize entry. -/
theorem c7_filesize_from_last_live_entry_witness :
    c7wData.filesize = resolvedNum c7wEntries labelFilesize :=
  (c7_filesize_from_last_live_entry c7wEntries c7wData (by decide)).1

/-- C7 counterexample: an entry list whose filesize entry carries the
numeric payload -5 decodes to a record with filesize -5, a negative
integer — the decoder does not enforce non-negativity. -/
theorem c7_counterexample :
    parseTimestampData c7entries =
      some { sha256 := hashB, title := "doc2", description := none,
             filename := none, filesize := some (-5) } ∧
    (-5 : Int) < 0 := by
  refine ⟨by decide, by decide⟩

/-- C8 (amended, timestamp-creation registry): a stored completed result
is returned by `getTimestampResult` without being deleted — polling twice
returns it both times and the store is unchanged — and the periodic sweep
retains it while its own TTL has not lapsed. -/
theorem c8_completed_result_not_consumed_by_read (s : TimestampStore)
    (id : String) (c : CompletedTimestamp) (now1 now2 : Int)
    (h : mapGet s.completedTimestamps id = some c) :
    (getTimestampResult s now1 id).1 = TsPollStatus.completed c.txid ∧
    (getTimestampResult s now1 id).2 = s ∧
    (getTimestampResult ((getTimestampResult s now1 id).2) now2 id).1 =
      TsPollStatus.completed c.txid ∧
    (now1 ≤ c.expiresAt →
      mapGet (sweepTimestampStore s now1).completedTimestamps id = some c) := by
  have h1 : (getTimestampResult s now1 id) = (TsPollStatus.completed c.txid, s) := by
    simp only [getTimestampResult, h]
  refine ⟨by rw [h1], by rw [h1], ?_, ?_⟩
  · rw [h1]
    simp only [getTimestampResult, h]
  · intro httl
    unfold sweepTimestampStore
    exact mapGet_filter_keep _ _ _ _ h (by simp; omega)

/-- C8 witness: concrete double poll of a completed timestamp result. -/
theorem c8_completed_result_not_consumed_by_read_witness :
    (getTimestampResult c8store 100 "r9").1 = TsPollStatus.completed "tx9" ∧
    (getTimestampResult c8store 100 "r9").2 = c8store ∧
    (getTimestampResult ((getTimestampResult c8store 100 "r9").2) 200 "r9").1 =
      TsPollStatus.completed "tx9" ∧
    mapGet (sweepTimestampStore c8store 100).completedTimestamps "r9" =
      some { txid := "tx9", completedAt := 0, expiresAt := 300000 } := by
  have h := c8_completed_result_not_consumed_by_read c8store "r9"
    { txid := "tx9", completedAt := 0, expiresAt := 300000 } 100 200 rfl
  exact ⟨h.1, h.2.1, h.2.2.1, h.2.2.2 (by decide)⟩

/-- C8 counterexample (login registry): `getAuthResult` with the default
`consume = true` — as the status route calls it — deletes the completed
result on the first read, so a second poll within the TTL returns nothing:
the claim fails for the login registry. -/
theorem c8_counterexample :
    (getAuthResult c8auth "c1" true).1 = some ("iAddrAlice", "alice@") ∧
    mapGet ((getAuthResult c8auth "c1" true).2).completedAuths "c1" = none ∧
    (getAuthResult ((getAuthResult c8auth "c1" true).2) "c1" true).1 = none := by
  refine ⟨by decide, by decide, by decide⟩

/-- C9: each field accumulated by the decode loop equals the extraction
result of the last non-tombstoned entry bearing the field's label — the
last such entry is literally the first hit searching the reversed list —
even when that extraction is undefined; concretely, a later live sha256
entry with numeric objectdata makes the whole decode return `None` despite
an earlier live, well-formed sha256 entry. -/
theorem c9_last_live_entry_decides_fields :
    (∀ (entries : List DataDescriptorWrapper) (l : String),
      lastLiveDescriptor entries l =
        (entries.reverse.find? (fun w => liveLabeled w l)).bind getWrapped) ∧
    (∀ entries : List DataDescriptorWrapper,
      (parseFoldResult entries).sha256 = resolvedStr entries labelSha256 ∧
      (parseFoldResult entries).title = resolvedStr entries labelTitle ∧
      (parseFoldResult entries).description = resolvedStr entries labelDescription ∧
      (parseFoldResult entries).filename = resolvedStr entries labelFilename ∧
      (parseFoldResult entries).filesize = resolvedNum entries labelFilesize) ∧
    parseTimestampData c9entries = none ∧
    hasLiveNonEmptyStrEntry c9entries labelSha256 = true := by
  refine ⟨lastLiveDescriptor_reverse_find, ?_, by decide, by decide⟩
  intro entries
  exact ⟨parseFoldResult_sha256 entries, parseFoldResult_title entries,
    parseFoldResult_description entries, parseFoldResult_filename entries,
    parseFoldResult_filesize entries⟩

/-- C10: `storeTimestampResult` is total, returns true for every store and
request id — including ids with no pending entry — an immediately
following poll returns `completed` with the stored txid, and a second
store for the same id overwrites the first. -/
theorem c10_store_result_total_and_overwrites (s : TimestampStore)
    (now1 now2 now3 : Int) (id txid1 txid2 : String) :
    (storeTimestampResult s now1 id txid1).1 = true ∧
    (getTimestampResult (storeTimestampResult s now1 id txid1).2 now2 id).1 =
      TsPollStatus.completed txid1 ∧
    (getTimestampResult
        (storeTimestampResult (storeTimestampResult s now1 id txid1).2
          now2 id txid2).2 now3 id).1 = TsPollStatus.completed txid2 := by
  refine ⟨rfl, ?_, ?_⟩
  · have hg : mapGet (storeTimestampResult s now1 id txid1).2.completedTimestamps
        id = some { txid := txid1, completedAt := now1,
                    expiresAt := now1 + 5 * 60 * 1000 } :=
      mapGet_mapSet_self _ _ _
    simp only [getTimestampResult, hg]
  · have hg : mapGet (storeTimestampResult
        (storeTimestampResult s now1 id txid1).2 now2 id txid2).2.completedTimestamps
        id = some { txid := txid2, completedAt := now2,
                    expiresAt := now2 + 5 * 60 * 1000 } :=
      mapGet_mapSet_self _ _ _
    simp only [getTimestampResult, hg]
